import Mathlib

/-!
Verification of the usage-aggregation and cost/forecast engine of
`neon_usage.py` (Neon Usage & Cost Calculator).

Python dicts are modelled as association lists (`Dict`): insertion keeps
the first occurrence's position and updates its value in place, otherwise
appends — matching CPython dict semantics (insertion order, unique keys).
Numeric values are modelled as `ℚ` (exact arithmetic in place of IEEE
floats); day counts are `ℕ`.
-/

namespace NeonUsage

/-- A Python dict with string keys and numeric values. -/
abbrev Dict := List (String × ℚ)

/-- `d[k]` as an option: the first entry whose key is `k` (keys are unique
in every dict this program constructs). -/
def dictLookup (d : Dict) (k : String) : Option ℚ :=
  (d.find? (fun p => p.1 == k)).map Prod.snd

/-- `d.get(k, v)`: lookup with a default. -/
def dictGetD (d : Dict) (k : String) (v : ℚ) : ℚ :=
  (dictLookup d k).getD v

/-- `d[k] = v`: update the existing entry in place, else append. -/
def dictInsert (d : Dict) (k : String) (v : ℚ) : Dict :=
  if d.any (fun p => p.1 == k) then
    d.map (fun p => if p.1 == k then (k, v) else p)
  else
    d ++ [(k, v)]

/-- `list(d.keys())`. -/
def dictKeys (d : Dict) : List String := d.map Prod.fst

/-- `PRICING`: the Launch-plan pricing table (module-level constant dict in
the source; modelled as an immutable record). -/
structure Pricing where
  compute_per_cu_hour : ℚ
  storage_per_gb_month : ℚ
  data_transfer_included_gb : ℚ
  data_transfer_per_gb : ℚ
  instant_restore_per_gb_month : ℚ
  extra_branch_per_month : ℚ
  minimum_monthly : ℚ

/-- The concrete `PRICING` values from the source. -/
def PRICING : Pricing :=
  { compute_per_cu_hour := 0.106
  , storage_per_gb_month := 0.35
  , data_transfer_included_gb := 100
  , data_transfer_per_gb := 0.10
  , instant_restore_per_gb_month := 0.20
  , extra_branch_per_month := 1.50
  , minimum_monthly := 5.00 }

/-- `V2_METRICS`: the closed set of seven metric names. -/
def V2_METRICS : List String :=
  [ "compute_unit_seconds"
  , "root_branch_bytes_month"
  , "child_branch_bytes_month"
  , "instant_restore_bytes_month"
  , "public_network_transfer_bytes"
  , "private_network_transfer_bytes"
  , "extra_branches_month" ]

/-- `CUMULATIVE_METRICS`: metrics summed across timeframes; everything else
is point-in-time. -/
def CUMULATIVE_METRICS : List String :=
  [ "compute_unit_seconds"
  , "public_network_transfer_bytes"
  , "private_network_transfer_bytes" ]

/-- One `{"metric_name": ..., "value": ...}` entry of a timeframe. -/
structure MetricReading where
  metric_name : String
  value : ℚ

/-- One timeframe: `{"metrics": [...]}`; a missing `metrics` key is
modelled as the empty list (`timeframe.get("metrics", [])`). -/
structure Timeframe where
  metrics : List MetricReading

/-- One period: `{"consumption": [...]}`; a missing `consumption` key is
modelled as the empty list (`periods[0].get("consumption", [])`). -/
structure Period where
  consumption : List Timeframe

/-- One project's raw v2 payload; a missing `periods` key is modelled as
the empty list (`project_data.get("periods", [])`). -/
structure RawProject where
  project_id : String
  periods : List Period

/-- `{m: 0 for m in V2_METRICS}`. -/
def initMetrics : Dict := V2_METRICS.map (fun m => (m, 0))

/-- `tf_metrics = {m["metric_name"]: m["value"] for m in timeframe.get("metrics", [])}` —
a dict comprehension: later duplicates overwrite earlier ones. -/
def tfMetrics (tf : Timeframe) : Dict :=
  tf.metrics.foldl (fun d r => dictInsert d r.metric_name r.value) []

/-- The body of the inner `for name in V2_METRICS` loop of
`aggregate_project_metrics` (`metrics[name]` is always present there, so
`dictGetD ms name 0` coincides with Python's `metrics[name]`). -/
def tfStep (tf : Timeframe) (ms : Dict) (name : String) : Dict :=
  match dictLookup (tfMetrics tf) name with
  | none => ms
  | some val =>
    if name ∈ CUMULATIVE_METRICS then
      dictInsert ms name (dictGetD ms name 0 + val)
    else
      dictInsert ms name val

/-- The body of the outer `for timeframe in consumption` loop of
`aggregate_project_metrics`: fold one timeframe into the running dict. -/
def applyTimeframe (metrics : Dict) (tf : Timeframe) : Dict :=
  V2_METRICS.foldl (tfStep tf) metrics

/-- `aggregate_project_metrics`: normalize one project's raw payload into a
flat metric dict (cumulative metrics summed across timeframes of the first
period, point-in-time metrics keep the latest value). -/
def aggregate_project_metrics (project_data : RawProject) : Dict :=
  match project_data.periods with
  | [] => initMetrics
  | period0 :: _ =>
    match period0.consumption with
    | [] => initMetrics
    | consumption => consumption.foldl applyTimeframe initMetrics

/-- One element of the `per_project` list built by `aggregate_all_projects`. -/
structure ProjectEntry where
  project_id : String
  metrics : Dict

/-- The body of `for name in V2_METRICS: totals[name] += proj_metrics[name]`
(both keys are always present, so `dictGetD ... 0` coincides with Python's
indexing). -/
def totalsStep (proj_metrics t : Dict) (name : String) : Dict :=
  dictInsert t name (dictGetD t name 0 + dictGetD proj_metrics name 0)

/-- The totals-update loop of `aggregate_all_projects`. -/
def addToTotals (totals proj_metrics : Dict) : Dict :=
  V2_METRICS.foldl (totalsStep proj_metrics) totals

/-- The body of the `for proj in projects_data` loop of
`aggregate_all_projects`. -/
def allStep (acc : List ProjectEntry × Dict) (proj : RawProject) :
    List ProjectEntry × Dict :=
  let proj_metrics := aggregate_project_metrics proj
  (acc.1 ++ [{ project_id := proj.project_id, metrics := proj_metrics }],
   addToTotals acc.2 proj_metrics)

/-- `aggregate_all_projects`: per-project metric dicts in input order plus
the organization-wide totals dict. -/
def aggregate_all_projects (projects_data : List RawProject) :
    List ProjectEntry × Dict :=
  projects_data.foldl allStep ([], initMetrics)

/-- `bytes_to_gb`: base-1024 conversion. -/
def bytes_to_gb (b : ℚ) : ℚ := b / 1024 ^ 3

/-- The `costs["compute"]` dict: keys `cu_hours`, `cost`. -/
structure ComputeCost where
  cu_hours : ℚ
  cost : ℚ

/-- The `costs["storage"]` dict: keys `gb`, `root_gb`, `child_gb`, `cost`. -/
structure StorageCost where
  gb : ℚ
  root_gb : ℚ
  child_gb : ℚ
  cost : ℚ

/-- The `costs["instant_restore"]` dict: keys `gb`, `cost`. -/
structure InstantRestoreCost where
  gb : ℚ
  cost : ℚ

/-- The `costs["data_transfer"]` dict: keys `gb`, `public_gb`, `private_gb`,
`included_gb`, `billable_gb`, `cost`. -/
structure DataTransferCost where
  gb : ℚ
  public_gb : ℚ
  private_gb : ℚ
  included_gb : ℚ
  billable_gb : ℚ
  cost : ℚ

/-- The `costs["extra_branches"]` dict: keys `branch_hours`, `avg_count`, `cost`. -/
structure ExtraBranchesCost where
  branch_hours : ℚ
  avg_count : ℚ
  cost : ℚ

/-- The `costs["total"]` / `forecast["total"]` dict: keys `subtotal`,
`minimum`, `final`. -/
structure TotalCost where
  subtotal : ℚ
  minimum : ℚ
  final : ℚ

/-- The `costs` dict returned by `calculate_costs`, in insertion order. -/
structure CostBreakdown where
  compute : ComputeCost
  storage : StorageCost
  instant_restore : InstantRestoreCost
  data_transfer : DataTransferCost
  extra_branches : ExtraBranchesCost
  total : TotalCost

/-- `calculate_costs`: itemized costs from aggregated metrics.
`metrics.get(name, 0)` is `dictGetD metrics name 0`; the subtotal is the
sum of the five item costs in insertion order. -/
def calculate_costs (metrics : Dict) (days_elapsed : ℕ) : CostBreakdown :=
  let cu_seconds := dictGetD metrics "compute_unit_seconds" 0
  let cu_hours := cu_seconds / 3600
  let compute : ComputeCost :=
    { cu_hours := cu_hours
    , cost := cu_hours * PRICING.compute_per_cu_hour }
  let root_bytes := dictGetD metrics "root_branch_bytes_month" 0
  let child_bytes := dictGetD metrics "child_branch_bytes_month" 0
  let storage_bytes := root_bytes + child_bytes
  let storage_gb := bytes_to_gb storage_bytes
  let storage : StorageCost :=
    { gb := storage_gb
    , root_gb := bytes_to_gb root_bytes
    , child_gb := bytes_to_gb child_bytes
    , cost := storage_gb * PRICING.storage_per_gb_month }
  let ir_bytes := dictGetD metrics "instant_restore_bytes_month" 0
  let ir_gb := bytes_to_gb ir_bytes
  let instant_restore : InstantRestoreCost :=
    { gb := ir_gb
    , cost := ir_gb * PRICING.instant_restore_per_gb_month }
  let pub_bytes := dictGetD metrics "public_network_transfer_bytes" 0
  let priv_bytes := dictGetD metrics "private_network_transfer_bytes" 0
  let transfer_bytes := pub_bytes + priv_bytes
  let transfer_gb := bytes_to_gb transfer_bytes
  let billable_transfer := max 0 (transfer_gb - PRICING.data_transfer_included_gb)
  let data_transfer : DataTransferCost :=
    { gb := transfer_gb
    , public_gb := bytes_to_gb pub_bytes
    , private_gb := bytes_to_gb priv_bytes
    , included_gb := PRICING.data_transfer_included_gb
    , billable_gb := billable_transfer
    , cost := billable_transfer * PRICING.data_transfer_per_gb }
  let total_branch_hours := dictGetD metrics "extra_branches_month" 0
  let avg_extra_branches :=
    if 0 < days_elapsed then total_branch_hours / (24 * (days_elapsed : ℚ)) else 0
  let extra_branches : ExtraBranchesCost :=
    { branch_hours := total_branch_hours
    , avg_count := avg_extra_branches
    , cost := avg_extra_branches * PRICING.extra_branch_per_month }
  let subtotal := compute.cost + storage.cost + instant_restore.cost
    + data_transfer.cost + extra_branches.cost
  { compute := compute
  , storage := storage
  , instant_restore := instant_restore
  , data_transfer := data_transfer
  , extra_branches := extra_branches
  , total :=
    { subtotal := subtotal
    , minimum := PRICING.minimum_monthly
    , final := max subtotal PRICING.minimum_monthly } }

/-- The `forecast["storage"]` and `forecast["instant_restore"]` dicts:
keys `gb`, `cost` only. -/
structure ForecastGbCost where
  gb : ℚ
  cost : ℚ

/-- The `forecast["data_transfer"]` dict: keys `gb`, `billable_gb`, `cost`. -/
structure ForecastDataTransfer where
  gb : ℚ
  billable_gb : ℚ
  cost : ℚ

/-- The `forecast["extra_branches"]` dict: keys `avg_count`, `cost`. -/
structure ForecastExtraBranches where
  avg_count : ℚ
  cost : ℚ

/-- The `forecast` dict returned by `calculate_forecast`, in insertion order. -/
structure ForecastBreakdown where
  compute : ComputeCost
  storage : ForecastGbCost
  instant_restore : ForecastGbCost
  data_transfer : ForecastDataTransfer
  extra_branches : ForecastExtraBranches
  total : TotalCost

/-- `calculate_forecast`: end-of-month projection; `None` (the "forecast
unavailable" sentinel) when `days_elapsed == 0`. -/
def calculate_forecast (costs : CostBreakdown) (days_elapsed days_in_month : ℕ) :
    Option ForecastBreakdown :=
  if days_elapsed = 0 then none
  else
    let ratio : ℚ := (days_elapsed : ℚ) / (days_in_month : ℚ)
    let compute : ComputeCost :=
      { cu_hours := costs.compute.cu_hours / ratio
      , cost := costs.compute.cost / ratio }
    let storage : ForecastGbCost :=
      { gb := costs.storage.gb, cost := costs.storage.cost }
    let instant_restore : ForecastGbCost :=
      { gb := costs.instant_restore.gb, cost := costs.instant_restore.cost }
    let proj_transfer := costs.data_transfer.gb / ratio
    let proj_billable := max 0 (proj_transfer - PRICING.data_transfer_included_gb)
    let data_transfer : ForecastDataTransfer :=
      { gb := proj_transfer
      , billable_gb := proj_billable
      , cost := proj_billable * PRICING.data_transfer_per_gb }
    let extra_branches : ForecastExtraBranches :=
      { avg_count := costs.extra_branches.avg_count
      , cost := costs.extra_branches.cost }
    let subtotal := compute.cost + storage.cost + instant_restore.cost
      + data_transfer.cost + extra_branches.cost
    some
      { compute := compute
      , storage := storage
      , instant_restore := instant_restore
      , data_transfer := data_transfer
      , extra_branches := extra_branches
      , total :=
        { subtotal := subtotal
        , minimum := PRICING.minimum_monthly
        , final := max subtotal PRICING.minimum_monthly } }

/-- The top-level keys of the `costs` dict, in insertion order. -/
def cost_item_order : List String :=
  ["compute", "storage", "instant_restore", "data_transfer", "extra_branches", "total"]

/-- The top-level keys of the `forecast` dict, in insertion order. -/
def forecast_item_order : List String :=
  ["compute", "storage", "instant_restore", "data_transfer", "extra_branches", "total"]

/-- The key set of each item dict built by `calculate_costs`, read off the
dict literals in the source. -/
def cost_item_fields (k : String) : List String :=
  if k = "compute" then ["cu_hours", "cost"]
  else if k = "storage" then ["gb", "root_gb", "child_gb", "cost"]
  else if k = "instant_restore" then ["gb", "cost"]
  else if k = "data_transfer" then
    ["gb", "public_gb", "private_gb", "included_gb", "billable_gb", "cost"]
  else if k = "extra_branches" then ["branch_hours", "avg_count", "cost"]
  else if k = "total" then ["subtotal", "minimum", "final"]
  else []

/-- The key set of each item dict built by `calculate_forecast`, read off
the dict literals in the source. -/
def forecast_item_fields (k : String) : List String :=
  if k = "compute" then ["cu_hours", "cost"]
  else if k = "storage" then ["gb", "cost"]
  else if k = "instant_restore" then ["gb", "cost"]
  else if k = "data_transfer" then ["gb", "billable_gb", "cost"]
  else if k = "extra_branches" then ["avg_count", "cost"]
  else if k = "total" then ["subtotal", "minimum", "final"]
  else []

/-- The cost category each metric feeds, projected to that category's
`cost` entry of a `CostBreakdown` (names outside the closed set feed no
category and map to 0). -/
def categoryCost (name : String) (c : CostBreakdown) : ℚ :=
  if name = "compute_unit_seconds" then c.compute.cost
  else if name = "root_branch_bytes_month" then c.storage.cost
  else if name = "child_branch_bytes_month" then c.storage.cost
  else if name = "instant_restore_bytes_month" then c.instant_restore.cost
  else if name = "public_network_transfer_bytes" then c.data_transfer.cost
  else if name = "private_network_transfer_bytes" then c.data_transfer.cost
  else if name = "extra_branches_month" then c.extra_branches.cost
  else 0

/-- A sample timeframe: one cumulative reading, one point-in-time reading,
and one unknown metric name. -/
def sampleTf1 : Timeframe :=
  { metrics := [ { metric_name := "compute_unit_seconds", value := 10 }
               , { metric_name := "root_branch_bytes_month", value := 5 }
               , { metric_name := "bogus_metric", value := 99 } ] }

/-- A later sample timeframe overriding the point-in-time reading. -/
def sampleTf2 : Timeframe :=
  { metrics := [ { metric_name := "compute_unit_seconds", value := 20 }
               , { metric_name := "root_branch_bytes_month", value := 7 } ] }

/-- A sample raw record with two periods (the second must be ignored). -/
def sampleProject : RawProject :=
  { project_id := "proj-a"
  , periods := [ { consumption := [sampleTf1, sampleTf2] }
               , { consumption := [sampleTf1] } ] }

/-- A raw record with no periods at all. -/
def emptyProject : RawProject :=
  { project_id := "proj-empty", periods := [] }

/-- A timeframe that repeats the cumulative metric name inside one
timeframe (dict comprehensions keep only the last occurrence). -/
def tfDup : Timeframe :=
  { metrics := [ { metric_name := "compute_unit_seconds", value := 10 }
               , { metric_name := "compute_unit_seconds", value := 32 } ] }

/-- A raw record whose single timeframe is `tfDup`. -/
def dupProject : RawProject :=
  { project_id := "proj-dup", periods := [ { consumption := [tfDup] } ] }

/-! ### Spec-side reference definitions (for the normalizer refinement
claims): written from the specification's words, to be compared with the
source-side `aggregate_project_metrics`. -/

/-- The timeframes of the first period of a raw record ("only the first
period is consumed"; none if the periods list is empty). -/
def firstTimeframes (pd : RawProject) : List Timeframe :=
  match pd.periods with
  | [] => []
  | p :: _ => p.consumption

/-- One spec step: "for each (MetricName, value) pair present: if
CUMULATIVE, add the value to the running total; if POINT_IN_TIME, overwrite
the running total; metrics absent from a timeframe are left unchanged". -/
def specStep (name : String) (acc : ℚ) (tf : Timeframe) : ℚ :=
  match dictLookup (tfMetrics tf) name with
  | none => acc
  | some v => if name ∈ CUMULATIVE_METRICS then acc + v else v

/-- The spec's per-metric running total over the timeframes, in order,
starting from 0. -/
def specMetricValue (tfs : List Timeframe) (name : String) : ℚ :=
  tfs.foldl (specStep name) 0

/-! ### Dictionary lemmas -/

theorem dictLookup_nil (k : String) : dictLookup [] k = none := rfl

theorem dictLookup_cons (p : String × ℚ) (t : Dict) (k : String) :
    dictLookup (p :: t) k = if p.1 = k then some p.2 else dictLookup t k := by
  by_cases h : p.1 = k <;> simp [dictLookup, List.find?_cons, h]

theorem dictAny_eq (d : Dict) (k : String) :
    d.any (fun p => p.1 == k) = true ↔ k ∈ dictKeys d := by
  simp [dictKeys, List.any_eq_true, List.mem_map]

theorem dictLookup_eq_none (d : Dict) (k : String) :
    dictLookup d k = none ↔ k ∉ dictKeys d := by
  induction d with
  | nil => simp [dictLookup, dictKeys]
  | cons p t ih =>
    rw [dictLookup_cons]
    by_cases h : p.1 = k
    · simp [h, dictKeys]
    · simp [h, dictKeys, ih, Ne.symm h]

theorem dictLookup_append (d₁ d₂ : Dict) (k : String) :
    dictLookup (d₁ ++ d₂) k = ((dictLookup d₁ k).or (dictLookup d₂ k)) := by
  unfold dictLookup
  rw [List.find?_append]
  cases List.find? (fun p => p.1 == k) d₁ <;> simp

theorem dictLookup_map_update (d : Dict) (k : String) (v : ℚ) (k' : String) :
    dictLookup (d.map (fun p => if p.1 == k then (k, v) else p)) k' =
      if k' = k then (if k ∈ dictKeys d then some v else none)
      else dictLookup d k' := by
  induction d with
  | nil => by_cases h : k' = k <;> simp [dictLookup, dictKeys, h]
  | cons p t ih =>
    simp only [List.map_cons]
    by_cases hp : p.1 = k
    · have hhead : (if (p.1 == k) = true then (k, v) else p) = (k, v) := by simp [hp]
      rw [hhead, dictLookup_cons]
      by_cases h : k' = k
      · subst h
        simp [dictKeys, hp]
      · rw [if_neg (fun he : k = k' => h he.symm), ih, if_neg h, if_neg h,
          dictLookup_cons, if_neg (fun he : p.1 = k' => h (he.symm.trans hp))]
    · have hhead : (if (p.1 == k) = true then (k, v) else p) = p := by simp [hp]
      rw [hhead, dictLookup_cons, ih]
      by_cases h : k' = k
      · subst h
        rw [if_neg hp, if_pos rfl, if_pos rfl]
        have hne : k' ≠ p.1 := fun he => hp he.symm
        have hiff : (k' ∈ p.1 :: List.map Prod.fst t) ↔ k' ∈ List.map Prod.fst t := by
          simp [hne]
        simp only [dictKeys, List.map_cons]
        rw [if_congr hiff rfl rfl]
      · simp [h, dictLookup_cons]

theorem dictLookup_dictInsert (d : Dict) (k : String) (v : ℚ) (k' : String) :
    dictLookup (dictInsert d k v) k' = if k' = k then some v else dictLookup d k' := by
  unfold dictInsert
  by_cases h : d.any (fun p => p.1 == k) = true
  · rw [if_pos h, dictLookup_map_update]
    have hk : k ∈ dictKeys d := (dictAny_eq d k).1 h
    simp [hk]
  · rw [if_neg h, dictLookup_append]
    have hk : k ∉ dictKeys d := fun hc => h ((dictAny_eq d k).2 hc)
    have hnone : dictLookup d k = none := (dictLookup_eq_none d k).2 hk
    by_cases hkk : k' = k
    · subst hkk
      rw [hnone]
      simp [dictLookup_cons]
    · rw [dictLookup_cons]
      have : ¬ k = k' := fun he => hkk he.symm
      simp only [this, if_false, dictLookup_nil]
      cases dictLookup d k' <;> simp [hkk]

theorem dictGetD_dictInsert (d : Dict) (k : String) (v : ℚ) (k' : String) :
    dictGetD (dictInsert d k v) k' 0 = if k' = k then v else dictGetD d k' 0 := by
  unfold dictGetD
  rw [dictLookup_dictInsert]
  by_cases h : k' = k <;> simp [h]

theorem dictKeys_dictInsert (d : Dict) (k : String) (v : ℚ) :
    dictKeys (dictInsert d k v) =
      if k ∈ dictKeys d then dictKeys d else dictKeys d ++ [k] := by
  unfold dictInsert
  by_cases h : d.any (fun p => p.1 == k) = true
  · rw [if_pos h, if_pos ((dictAny_eq d k).1 h)]
    unfold dictKeys
    rw [List.map_map]
    apply List.map_congr_left
    intro p _
    by_cases hp : p.1 = k <;> simp [hp]
  · rw [if_neg h, if_neg (fun hc => h ((dictAny_eq d k).2 hc))]
    simp [dictKeys]

theorem dictLookup_of_mem_keys (d : Dict) (k : String) (h : k ∈ dictKeys d) :
    dictLookup d k = some (dictGetD d k 0) := by
  cases hl : dictLookup d k with
  | none => exact absurd ((dictLookup_eq_none d k).1 hl) (not_not_intro h)
  | some v => simp [dictGetD, hl]

theorem dict_ext (d d' : Dict) (hk : dictKeys d = dictKeys d')
    (hnd : (dictKeys d).Nodup)
    (hv : ∀ k ∈ dictKeys d, dictLookup d k = dictLookup d' k) : d = d' := by
  induction d generalizing d' with
  | nil =>
    cases d' with
    | nil => rfl
    | cons q s => simp [dictKeys] at hk
  | cons p t ih =>
    cases d' with
    | nil => simp [dictKeys] at hk
    | cons q s =>
      obtain ⟨p1, p2⟩ := p
      obtain ⟨q1, q2⟩ := q
      simp only [dictKeys, List.map_cons, List.cons.injEq] at hk
      obtain ⟨hk1, hk2⟩ := hk
      have hvp := hv p1 (by simp [dictKeys])
      rw [dictLookup_cons, dictLookup_cons, if_pos rfl, if_pos hk1.symm] at hvp
      have hv2 : p2 = q2 := Option.some.inj hvp
      simp only [dictKeys, List.map_cons, List.nodup_cons] at hnd
      have ht : t = s := by
        apply ih s hk2 hnd.2
        intro k hkt
        have hkne : p1 ≠ k := fun he => hnd.1 (he ▸ hkt)
        have hq1ne : q1 ≠ k := hk1 ▸ hkne
        have hvk := hv k (by
          simp only [dictKeys, List.map_cons, List.mem_cons]
          exact Or.inr hkt)
        rwa [dictLookup_cons, dictLookup_cons, if_neg hkne, if_neg hq1ne] at hvk
      rw [hk1, hv2, ht]

/-! ### Generic fold lemmas over the `for name in V2_METRICS` loops -/

theorem foldl_getD_of_not_mem {f : Dict → String → Dict} {name : String}
    (hf : ∀ d n, n ≠ name → dictGetD (f d n) name 0 = dictGetD d name 0)
    (names : List String) (h : name ∉ names) (d : Dict) :
    dictGetD (names.foldl f d) name 0 = dictGetD d name 0 := by
  induction names generalizing d with
  | nil => rfl
  | cons n t ih =>
    simp only [List.foldl_cons]
    rw [ih (fun hc => h (List.mem_cons_of_mem _ hc)),
      hf d n (fun he => h (he ▸ List.mem_cons_self n t))]

theorem foldl_getD_of_mem {f : Dict → String → Dict} {name : String}
    (hf_ne : ∀ d n, n ≠ name → dictGetD (f d n) name 0 = dictGetD d name 0)
    (hf_self : ∀ d d', dictGetD d name 0 = dictGetD d' name 0 →
      dictGetD (f d name) name 0 = dictGetD (f d' name) name 0)
    (names : List String) (hnd : names.Nodup) (hmem : name ∈ names) (d : Dict) :
    dictGetD (names.foldl f d) name 0 = dictGetD (f d name) name 0 := by
  induction names generalizing d with
  | nil => cases hmem
  | cons n t ih =>
    simp only [List.foldl_cons]
    rcases List.mem_cons.1 hmem with he | hm
    · subst he
      exact foldl_getD_of_not_mem hf_ne t (List.nodup_cons.1 hnd).1 (f d name)
    · have hne : n ≠ name := fun he => (List.nodup_cons.1 hnd).1 (he ▸ hm)
      rw [ih (List.nodup_cons.1 hnd).2 hm (f d n)]
      exact hf_self (f d n) d (hf_ne d n hne)

theorem foldl_dictKeys {f : Dict → String → Dict}
    (hf : ∀ d n, n ∈ V2_METRICS → dictKeys d = V2_METRICS →
      dictKeys (f d n) = V2_METRICS)
    (names : List String) (hsub : ∀ n ∈ names, n ∈ V2_METRICS) (d : Dict)
    (hd : dictKeys d = V2_METRICS) :
    dictKeys (names.foldl f d) = V2_METRICS := by
  induction names generalizing d with
  | nil => exact hd
  | cons n t ih =>
    simp only [List.foldl_cons]
    exact ih (fun m hm => hsub m (List.mem_cons_of_mem _ hm)) (f d n)
      (hf d n (hsub n (List.mem_cons_self n t)) hd)

/-! ### Normalizer lemmas -/

theorem V2_METRICS_nodup : V2_METRICS.Nodup := by decide

theorem dictKeys_initMetrics : dictKeys initMetrics = V2_METRICS := by
  unfold dictKeys initMetrics
  rw [List.map_map]
  simp [Function.comp_def]

theorem dictGetD_map_zero (l : List String) (name : String) :
    dictGetD (l.map (fun m => (m, (0 : ℚ)))) name 0 = 0 := by
  induction l with
  | nil => rfl
  | cons a t ih =>
    rw [List.map_cons]
    unfold dictGetD
    rw [dictLookup_cons]
    by_cases h : a = name
    · simp [h]
    · simp only [h, if_false]
      exact ih

theorem dictGetD_initMetrics (name : String) : dictGetD initMetrics name 0 = 0 :=
  dictGetD_map_zero V2_METRICS name

theorem tfStep_getD_ne (tf : Timeframe) (d : Dict) (n name : String)
    (h : n ≠ name) : dictGetD (tfStep tf d n) name 0 = dictGetD d name 0 := by
  unfold tfStep
  cases dictLookup (tfMetrics tf) n with
  | none => rfl
  | some v =>
    by_cases hc : n ∈ CUMULATIVE_METRICS <;>
      simp [hc, dictGetD_dictInsert, Ne.symm h]

theorem tfStep_getD_self (tf : Timeframe) (d : Dict) (name : String) :
    dictGetD (tfStep tf d name) name 0 = specStep name (dictGetD d name 0) tf := by
  unfold tfStep specStep
  cases dictLookup (tfMetrics tf) name with
  | none => rfl
  | some v =>
    by_cases hc : name ∈ CUMULATIVE_METRICS <;>
      simp [hc, dictGetD_dictInsert]

theorem applyTimeframe_getD (ms : Dict) (tf : Timeframe) (name : String)
    (hmem : name ∈ V2_METRICS) :
    dictGetD (applyTimeframe ms tf) name 0 = specStep name (dictGetD ms name 0) tf := by
  unfold applyTimeframe
  rw [foldl_getD_of_mem (fun d n h => tfStep_getD_ne tf d n name h)
    (fun d d' h => by rw [tfStep_getD_self, tfStep_getD_self, h])
    V2_METRICS V2_METRICS_nodup hmem ms]
  exact tfStep_getD_self tf ms name

theorem foldl_applyTimeframe_getD (tfs : List Timeframe) (ms : Dict)
    (name : String) (hmem : name ∈ V2_METRICS) :
    dictGetD (tfs.foldl applyTimeframe ms) name 0 =
      tfs.foldl (specStep name) (dictGetD ms name 0) := by
  induction tfs generalizing ms with
  | nil => rfl
  | cons tf rest ih =>
    simp only [List.foldl_cons]
    rw [ih (applyTimeframe ms tf), applyTimeframe_getD ms tf name hmem]

theorem aggregate_project_metrics_getD (pd : RawProject) (name : String)
    (hmem : name ∈ V2_METRICS) :
    dictGetD (aggregate_project_metrics pd) name 0 =
      specMetricValue (firstTimeframes pd) name := by
  obtain ⟨pid, periods⟩ := pd
  unfold aggregate_project_metrics firstTimeframes specMetricValue
  cases periods with
  | nil => exact dictGetD_initMetrics name
  | cons p0 rest =>
    obtain ⟨consumption⟩ := p0
    cases consumption with
    | nil => exact dictGetD_initMetrics name
    | cons tf tfs =>
      show dictGetD (List.foldl applyTimeframe initMetrics (tf :: tfs)) name 0 =
        List.foldl (specStep name) 0 (tf :: tfs)
      rw [foldl_applyTimeframe_getD (tf :: tfs) initMetrics name hmem,
        dictGetD_initMetrics]

theorem tfStep_keys (tf : Timeframe) (d : Dict) (n : String)
    (hn : n ∈ V2_METRICS) (hd : dictKeys d = V2_METRICS) :
    dictKeys (tfStep tf d n) = V2_METRICS := by
  unfold tfStep
  have hmem : n ∈ dictKeys d := hd ▸ hn
  cases dictLookup (tfMetrics tf) n with
  | none => exact hd
  | some v =>
    by_cases hc : n ∈ CUMULATIVE_METRICS <;>
      simp [hc, dictKeys_dictInsert, hmem, hd, hn]

theorem applyTimeframe_keys (ms : Dict) (tf : Timeframe)
    (hd : dictKeys ms = V2_METRICS) :
    dictKeys (applyTimeframe ms tf) = V2_METRICS :=
  foldl_dictKeys (tfStep_keys tf) V2_METRICS (fun _ h => h) ms hd

theorem foldl_applyTimeframe_keys (tfs : List Timeframe) (ms : Dict)
    (hd : dictKeys ms = V2_METRICS) :
    dictKeys (tfs.foldl applyTimeframe ms) = V2_METRICS := by
  induction tfs generalizing ms with
  | nil => exact hd
  | cons tf rest ih =>
    exact ih (applyTimeframe ms tf) (applyTimeframe_keys ms tf hd)

theorem aggregate_project_metrics_keys (pd : RawProject) :
    dictKeys (aggregate_project_metrics pd) = V2_METRICS := by
  obtain ⟨pid, periods⟩ := pd
  unfold aggregate_project_metrics
  cases periods with
  | nil => exact dictKeys_initMetrics
  | cons p0 rest =>
    obtain ⟨consumption⟩ := p0
    cases consumption with
    | nil => exact dictKeys_initMetrics
    | cons tf tfs =>
      exact foldl_applyTimeframe_keys (tf :: tfs) initMetrics dictKeys_initMetrics

/-! ### Aggregator lemmas -/

theorem totalsStep_getD_ne (pm t : Dict) (n name : String) (h : n ≠ name) :
    dictGetD (totalsStep pm t n) name 0 = dictGetD t name 0 := by
  unfold totalsStep
  simp [dictGetD_dictInsert, Ne.symm h]

theorem totalsStep_getD_self (pm t : Dict) (name : String) :
    dictGetD (totalsStep pm t name) name 0 =
      dictGetD t name 0 + dictGetD pm name 0 := by
  unfold totalsStep
  simp [dictGetD_dictInsert]

theorem addToTotals_getD (t pm : Dict) (name : String) (hmem : name ∈ V2_METRICS) :
    dictGetD (addToTotals t pm) name 0 =
      dictGetD t name 0 + dictGetD pm name 0 := by
  unfold addToTotals
  rw [foldl_getD_of_mem (fun d n h => totalsStep_getD_ne pm d n name h)
    (fun d d' h => by rw [totalsStep_getD_self, totalsStep_getD_self, h])
    V2_METRICS V2_METRICS_nodup hmem t]
  exact totalsStep_getD_self pm t name

theorem totalsStep_keys (pm d : Dict) (n : String)
    (hn : n ∈ V2_METRICS) (hd : dictKeys d = V2_METRICS) :
    dictKeys (totalsStep pm d n) = V2_METRICS := by
  unfold totalsStep
  have hmem : n ∈ dictKeys d := hd ▸ hn
  simp [dictKeys_dictInsert, hmem, hd, hn]

theorem addToTotals_keys (t pm : Dict) (hd : dictKeys t = V2_METRICS) :
    dictKeys (addToTotals t pm) = V2_METRICS :=
  foldl_dictKeys (totalsStep_keys pm) V2_METRICS (fun _ h => h) t hd

theorem aggregate_all_foldl_fst (ps : List RawProject)
    (acc : List ProjectEntry × Dict) :
    (ps.foldl allStep acc).1 = acc.1 ++ ps.map
      (fun p => { project_id := p.project_id
                , metrics := aggregate_project_metrics p }) := by
  induction ps generalizing acc with
  | nil => simp
  | cons p t ih =>
    simp only [List.foldl_cons, List.map_cons]
    rw [ih]
    simp [allStep]

theorem aggregate_all_foldl_snd (ps : List RawProject)
    (acc : List ProjectEntry × Dict) :
    (ps.foldl allStep acc).2 =
      ps.foldl (fun t p => addToTotals t (aggregate_project_metrics p)) acc.2 := by
  induction ps generalizing acc with
  | nil => rfl
  | cons p t ih =>
    simp only [List.foldl_cons]
    rw [ih]
    rfl

theorem aggregate_all_projects_fst (ps : List RawProject) :
    (aggregate_all_projects ps).1 = ps.map
      (fun p => { project_id := p.project_id
                , metrics := aggregate_project_metrics p }) := by
  unfold aggregate_all_projects
  rw [aggregate_all_foldl_fst]
  rfl

theorem totals_foldl_getD (ps : List RawProject) (t : Dict) (name : String)
    (hmem : name ∈ V2_METRICS) :
    dictGetD (ps.foldl (fun t p => addToTotals t (aggregate_project_metrics p)) t) name 0 =
      dictGetD t name 0 +
        (ps.map (fun p => dictGetD (aggregate_project_metrics p) name 0)).sum := by
  induction ps generalizing t with
  | nil => simp
  | cons p rest ih =>
    simp only [List.foldl_cons, List.map_cons, List.sum_cons]
    rw [ih (addToTotals t (aggregate_project_metrics p)), addToTotals_getD _ _ _ hmem]
    ring

theorem aggregate_all_projects_totals_getD (ps : List RawProject) (name : String)
    (hmem : name ∈ V2_METRICS) :
    dictGetD (aggregate_all_projects ps).2 name 0 =
      (ps.map (fun p => dictGetD (aggregate_project_metrics p) name 0)).sum := by
  unfold aggregate_all_projects
  rw [aggregate_all_foldl_snd, totals_foldl_getD ps initMetrics name hmem,
    dictGetD_initMetrics]
  ring

theorem totals_foldl_keys (ps : List RawProject) (t : Dict)
    (hd : dictKeys t = V2_METRICS) :
    dictKeys (ps.foldl (fun t p => addToTotals t (aggregate_project_metrics p)) t) =
      V2_METRICS := by
  induction ps generalizing t with
  | nil => exact hd
  | cons p rest ih =>
    simp only [List.foldl_cons]
    exact ih _ (addToTotals_keys _ _ hd)

theorem aggregate_all_projects_totals_keys (ps : List RawProject) :
    dictKeys (aggregate_all_projects ps).2 = V2_METRICS := by
  unfold aggregate_all_projects
  rw [aggregate_all_foldl_snd]
  exact totals_foldl_keys ps initMetrics dictKeys_initMetrics

/-! ### Timeframe-dict (dict comprehension) lemmas -/

theorem dictLookup_foldl_insert (ms : List MetricReading) (d : Dict) (name : String) :
    dictLookup (ms.foldl (fun d r => dictInsert d r.metric_name r.value) d) name =
      ((ms.reverse.find? (fun r => r.metric_name == name)).map
        (fun r => r.value)).or (dictLookup d name) := by
  induction ms generalizing d with
  | nil => simp
  | cons r rest ih =>
    simp only [List.foldl_cons, List.reverse_cons]
    rw [ih, List.find?_append]
    cases hf : rest.reverse.find? (fun r => r.metric_name == name) with
    | some x => simp [Option.or]
    | none =>
      rw [dictLookup_dictInsert]
      by_cases h : name = r.metric_name
      · simp [List.find?, h, Option.or]
      · have hrn : ¬ r.metric_name = name := fun he => h he.symm
        have : (r.metric_name == name) = false := by simp [hrn]
        simp [List.find?, this, h, Option.or]

theorem tfMetrics_lookup (tf : Timeframe) (name : String) :
    dictLookup (tfMetrics tf) name =
      (tf.metrics.reverse.find? (fun r => r.metric_name == name)).map
        (fun r => r.value) := by
  unfold tfMetrics
  rw [dictLookup_foldl_insert]
  simp [dictLookup_nil]

theorem tfMetrics_lookup_none (tf : Timeframe) (name : String)
    (h : ∀ r ∈ tf.metrics, r.metric_name ≠ name) :
    dictLookup (tfMetrics tf) name = none := by
  rw [tfMetrics_lookup]
  rw [List.find?_eq_none.2 (fun x hx => by
    simpa using h x (List.mem_reverse.1 hx))]
  rfl

theorem foldl_specStep_absent (tfs : List Timeframe) (name : String)
    (h : ∀ tf ∈ tfs, dictLookup (tfMetrics tf) name = none) (a : ℚ) :
    tfs.foldl (specStep name) a = a := by
  induction tfs generalizing a with
  | nil => rfl
  | cons tf rest ih =>
    simp only [List.foldl_cons]
    have hstep : specStep name a tf = a := by
      unfold specStep
      rw [h tf (List.mem_cons_self tf rest)]
    rw [hstep]
    exact ih (fun t ht => h t (List.mem_cons_of_mem _ ht)) a

/-! ### Claim theorems -/

/-- C1: For every raw consumption record the Metric Normalizer reads only
the first period; for each metric of the closed set its result equals the
spec's fold over that period's timeframes in order (CUMULATIVE values
added, point-in-time values overwritten so the last timeframe wins, absent
metrics left unchanged); metric names outside the closed set never appear
in the result. -/
theorem C1_normalizer_folds_first_period (pd : RawProject) :
    (∀ p rest, pd.periods = p :: rest →
      aggregate_project_metrics pd =
        aggregate_project_metrics { project_id := pd.project_id, periods := [p] }) ∧
    (∀ name ∈ V2_METRICS,
      dictGetD (aggregate_project_metrics pd) name 0 =
        specMetricValue (firstTimeframes pd) name) ∧
    (∀ name, name ∉ V2_METRICS →
      dictLookup (aggregate_project_metrics pd) name = none) := by
  refine ⟨?_, fun name hmem => aggregate_project_metrics_getD pd name hmem, ?_⟩
  · intro p rest hp
    obtain ⟨pid, periods⟩ := pd
    simp only at hp
    subst hp
    rfl
  · intro name hn
    rw [dictLookup_eq_none, aggregate_project_metrics_keys]
    exact hn

/-- C1 witness: on a concrete two-period record the normalizer agrees with
the spec fold at a cumulative metric (value 10 + 20 = 30, second period
ignored), and an unknown metric name is absent from the result. -/
theorem C1_witness :
    dictGetD (aggregate_project_metrics sampleProject) "compute_unit_seconds" 0 =
      specMetricValue (firstTimeframes sampleProject) "compute_unit_seconds" ∧
    specMetricValue (firstTimeframes sampleProject) "compute_unit_seconds" = 30 ∧
    dictLookup (aggregate_project_metrics sampleProject) "bogus_metric" = none :=
  ⟨(C1_normalizer_folds_first_period sampleProject).2.1 "compute_unit_seconds" (by decide),
   by norm_num [specMetricValue, firstTimeframes, sampleProject, sampleTf1,
     sampleTf2, specStep, tfMetrics, dictLookup, dictInsert, dictGetD,
     CUMULATIVE_METRICS, List.foldl, List.find?],
   (C1_normalizer_folds_first_period sampleProject).2.2 "bogus_metric" (by decide)⟩

/-- C2: For every raw record (periods missing/empty or first period with
empty consumption included) the normalizer's key set is exactly the seven
metric names, with value 0 for any metric absent from the raw data, and the
Aggregator's totals dict has the same key set for every input list. -/
theorem C2_key_set_invariant (pd : RawProject) :
    dictKeys (aggregate_project_metrics pd) = V2_METRICS ∧
    (∀ name ∈ V2_METRICS,
      (∀ tf ∈ firstTimeframes pd, ∀ r ∈ tf.metrics, r.metric_name ≠ name) →
      dictGetD (aggregate_project_metrics pd) name 0 = 0) ∧
    (∀ ps : List RawProject, dictKeys (aggregate_all_projects ps).2 = V2_METRICS) := by
  refine ⟨aggregate_project_metrics_keys pd, ?_, aggregate_all_projects_totals_keys⟩
  intro name hmem habs
  rw [aggregate_project_metrics_getD pd name hmem]
  exact foldl_specStep_absent _ name
    (fun tf htf => tfMetrics_lookup_none tf name (habs tf htf)) 0

/-- C2 witness: a record with no periods still yields all seven keys and a
zero value. -/
theorem C2_witness :
    dictKeys (aggregate_project_metrics emptyProject) = V2_METRICS ∧
    dictGetD (aggregate_project_metrics emptyProject) "extra_branches_month" 0 = 0 :=
  ⟨(C2_key_set_invariant emptyProject).1,
   (C2_key_set_invariant emptyProject).2.1 "extra_branches_month" (by decide)
     (by intro tf htf; simp [firstTimeframes, emptyProject] at htf)⟩

/-- C10: when a timeframe repeats a metric name, the dict comprehension
keeps only the last occurrence (first match in the reversed reading list);
hence for a single-timeframe record the normalizer yields the last
occurrence's value — duplicates of a CUMULATIVE metric are not summed. -/
theorem C10_last_occurrence_wins (tf : Timeframe) (name : String) :
    dictLookup (tfMetrics tf) name =
      (tf.metrics.reverse.find? (fun r => r.metric_name == name)).map
        (fun r => r.value) ∧
    (name ∈ V2_METRICS → ∀ pid,
      dictGetD (aggregate_project_metrics
        { project_id := pid, periods := [{ consumption := [tf] }] }) name 0 =
      ((tf.metrics.reverse.find? (fun r => r.metric_name == name)).map
        (fun r => r.value)).getD 0) := by
  refine ⟨tfMetrics_lookup tf name, fun hmem pid => ?_⟩
  rw [aggregate_project_metrics_getD _ name hmem]
  show specStep name 0 tf = _
  unfold specStep
  rw [tfMetrics_lookup]
  cases hf : tf.metrics.reverse.find? (fun r => r.metric_name == name) with
  | none => rfl
  | some r =>
    by_cases hc : name ∈ CUMULATIVE_METRICS <;> simp [hc]

/-- C10 witness: duplicated `compute_unit_seconds` readings 10 then 32 in
one timeframe yield 32 — the last occurrence — not the sum 42. -/
theorem C10_witness :
    dictGetD (aggregate_project_metrics dupProject) "compute_unit_seconds" 0 =
      ((tfDup.metrics.reverse.find?
        (fun r => r.metric_name == "compute_unit_seconds")).map
        (fun r => r.value)).getD 0 ∧
    dictGetD (aggregate_project_metrics dupProject) "compute_unit_seconds" 0 = 32 :=
  ⟨(C10_last_occurrence_wins tfDup "compute_unit_seconds").2 (by decide) "proj-dup",
   by norm_num [dupProject, tfDup, aggregate_project_metrics, applyTimeframe,
     V2_METRICS, tfStep, tfMetrics, dictLookup, dictInsert, dictGetD,
     initMetrics, CUMULATIVE_METRICS, List.foldl, List.find?]⟩

/-- C5: The Aggregator returns the per-project metric dicts in input order,
its totals entry for every metric name of the closed set is the sum of the
per-project normalized values, and aggregating any permutation of the
project list yields an identical totals dict (exact arithmetic). -/
theorem C5_totals_sum_and_permutation (ps : List RawProject) :
    ((aggregate_all_projects ps).1 = ps.map
      (fun p => { project_id := p.project_id
                , metrics := aggregate_project_metrics p })) ∧
    (∀ name ∈ V2_METRICS,
      dictGetD (aggregate_all_projects ps).2 name 0 =
        (ps.map (fun p => dictGetD (aggregate_project_metrics p) name 0)).sum) ∧
    (∀ ps' : List RawProject, ps.Perm ps' →
      (aggregate_all_projects ps).2 = (aggregate_all_projects ps').2) := by
  refine ⟨aggregate_all_projects_fst ps, aggregate_all_projects_totals_getD ps, ?_⟩
  intro ps' hperm
  apply dict_ext
  · rw [aggregate_all_projects_totals_keys, aggregate_all_projects_totals_keys]
  · rw [aggregate_all_projects_totals_keys]
    exact V2_METRICS_nodup
  · intro k hk
    rw [aggregate_all_projects_totals_keys] at hk
    rw [dictLookup_of_mem_keys _ k
        (by rw [aggregate_all_projects_totals_keys]; exact hk),
      dictLookup_of_mem_keys _ k
        (by rw [aggregate_all_projects_totals_keys]; exact hk)]
    rw [aggregate_all_projects_totals_getD ps k hk,
      aggregate_all_projects_totals_getD ps' k hk]
    rw [(hperm.map _).sum_eq]

/-- C5 witness: with a two-project list, the totals entry equals the sum of
the per-project values and swapping the projects leaves the totals dict
unchanged. -/
theorem C5_witness :
    dictGetD (aggregate_all_projects [sampleProject, emptyProject]).2
        "compute_unit_seconds" 0 =
      ([sampleProject, emptyProject].map
        (fun p => dictGetD (aggregate_project_metrics p) "compute_unit_seconds" 0)).sum ∧
    (aggregate_all_projects [sampleProject, emptyProject]).2 =
      (aggregate_all_projects [emptyProject, sampleProject]).2 :=
  ⟨(C5_totals_sum_and_permutation [sampleProject, emptyProject]).2.1
      "compute_unit_seconds" (by decide),
   (C5_totals_sum_and_permutation [sampleProject, emptyProject]).2.2
      [emptyProject, sampleProject] (List.Perm.swap emptyProject sampleProject [])⟩

/-- C3: The total entry of every cost breakdown satisfies
subtotal = compute + storage + instant_restore + data_transfer +
extra_branches and final = max(subtotal, minimum_monthly), so
final ≥ minimum_monthly; with all usage zero the subtotal is 0 and the
final total is minimum_monthly = 5. -/
theorem C3_total_floor (metrics : Dict) (days_elapsed : ℕ) :
    (calculate_costs metrics days_elapsed).total.subtotal =
        (calculate_costs metrics days_elapsed).compute.cost
      + (calculate_costs metrics days_elapsed).storage.cost
      + (calculate_costs metrics days_elapsed).instant_restore.cost
      + (calculate_costs metrics days_elapsed).data_transfer.cost
      + (calculate_costs metrics days_elapsed).extra_branches.cost ∧
    (calculate_costs metrics days_elapsed).total.final =
      max (calculate_costs metrics days_elapsed).total.subtotal
        PRICING.minimum_monthly ∧
    PRICING.minimum_monthly ≤ (calculate_costs metrics days_elapsed).total.final ∧
    (calculate_costs initMetrics days_elapsed).total.subtotal = 0 ∧
    (calculate_costs initMetrics days_elapsed).total.final = PRICING.minimum_monthly ∧
    PRICING.minimum_monthly = 5 := by
  have hzero : (calculate_costs initMetrics days_elapsed).total.subtotal = 0 := by
    simp [calculate_costs, dictGetD_initMetrics, bytes_to_gb, PRICING]
  refine ⟨rfl, rfl, le_max_right _ _, hzero, ?_, by norm_num [PRICING]⟩
  show max (calculate_costs initMetrics days_elapsed).total.subtotal
    PRICING.minimum_monthly = PRICING.minimum_monthly
  rw [hzero]
  norm_num [PRICING]

/-- C7: The extra-branches item satisfies
avg_extra_branches = branch_hours / (24 × days_elapsed) when
days_elapsed > 0 (else 0) and cost = avg × extra_branch_per_month; with
240 branch-hours over 10 days the average is 1.0 and the cost is
1 × extra_branch_per_month. -/
theorem C7_extra_branches (metrics : Dict) (days_elapsed : ℕ) :
    (calculate_costs metrics days_elapsed).extra_branches.avg_count =
      (if 0 < days_elapsed then
        dictGetD metrics "extra_branches_month" 0 / (24 * (days_elapsed : ℚ))
      else 0) ∧
    (calculate_costs metrics days_elapsed).extra_branches.cost =
      (calculate_costs metrics days_elapsed).extra_branches.avg_count
        * PRICING.extra_branch_per_month ∧
    (calculate_costs [("extra_branches_month", 240)] 10).extra_branches.avg_count
      = 1 ∧
    (calculate_costs [("extra_branches_month", 240)] 10).extra_branches.cost
      = 1 * PRICING.extra_branch_per_month := by
  refine ⟨rfl, rfl, ?_, ?_⟩ <;>
    norm_num [calculate_costs, dictGetD, dictLookup, List.find?, PRICING]

/-- C6: Increasing a single usage metric while holding the other metrics of
the closed set fixed never decreases the cost of the category that metric
feeds. -/
theorem C6_cost_monotonicity (d₁ d₂ : Dict) (days_elapsed : ℕ) (name : String)
    (hmem : name ∈ V2_METRICS)
    (hfix : ∀ n ∈ V2_METRICS, n ≠ name → dictGetD d₁ n 0 = dictGetD d₂ n 0)
    (hle : dictGetD d₁ name 0 ≤ dictGetD d₂ name 0) :
    categoryCost name (calculate_costs d₁ days_elapsed) ≤
      categoryCost name (calculate_costs d₂ days_elapsed) := by
  fin_cases hmem
  · -- compute_unit_seconds
    simp only [categoryCost, if_pos rfl, calculate_costs]
    norm_num [PRICING]
    linarith [hle]
  · -- root_branch_bytes_month
    have hc := hfix "child_branch_bytes_month" (by decide) (by decide)
    show (calculate_costs d₁ days_elapsed).storage.cost ≤
      (calculate_costs d₂ days_elapsed).storage.cost
    simp only [calculate_costs]
    norm_num [PRICING, bytes_to_gb]
    linarith [hle, hc]
  · -- child_branch_bytes_month
    have hr := hfix "root_branch_bytes_month" (by decide) (by decide)
    show (calculate_costs d₁ days_elapsed).storage.cost ≤
      (calculate_costs d₂ days_elapsed).storage.cost
    simp only [calculate_costs]
    norm_num [PRICING, bytes_to_gb]
    linarith [hle, hr]
  · -- instant_restore_bytes_month
    show (calculate_costs d₁ days_elapsed).instant_restore.cost ≤
      (calculate_costs d₂ days_elapsed).instant_restore.cost
    simp only [calculate_costs]
    norm_num [PRICING, bytes_to_gb]
    linarith [hle]
  · -- public_network_transfer_bytes
    have hq := hfix "private_network_transfer_bytes" (by decide) (by decide)
    show (calculate_costs d₁ days_elapsed).data_transfer.cost ≤
      (calculate_costs d₂ days_elapsed).data_transfer.cost
    simp only [calculate_costs]
    refine mul_le_mul_of_nonneg_right (max_le_max le_rfl ?_) (by norm_num [PRICING])
    unfold bytes_to_gb
    rw [hq]
    have h3 : (0:ℚ) ≤ 1024 ^ 3 := by norm_num
    apply sub_le_sub_right
    apply div_le_div_of_nonneg_right ?_ h3
    linarith [hle]
  · -- private_network_transfer_bytes
    have hp := hfix "public_network_transfer_bytes" (by decide) (by decide)
    show (calculate_costs d₁ days_elapsed).data_transfer.cost ≤
      (calculate_costs d₂ days_elapsed).data_transfer.cost
    simp only [calculate_costs]
    refine mul_le_mul_of_nonneg_right (max_le_max le_rfl ?_) (by norm_num [PRICING])
    unfold bytes_to_gb
    rw [hp]
    have h3 : (0:ℚ) ≤ 1024 ^ 3 := by norm_num
    apply sub_le_sub_right
    apply div_le_div_of_nonneg_right ?_ h3
    linarith [hle]
  · -- extra_branches_month
    show (calculate_costs d₁ days_elapsed).extra_branches.cost ≤
      (calculate_costs d₂ days_elapsed).extra_branches.cost
    simp only [calculate_costs]
    by_cases hde : 0 < days_elapsed
    · simp only [if_pos hde]
      refine mul_le_mul_of_nonneg_right ?_ (by norm_num [PRICING])
      have hdpos : (0:ℚ) < (days_elapsed : ℚ) := by exact_mod_cast hde
      have h24 : (0:ℚ) < 24 * (days_elapsed : ℚ) := by linarith
      exact div_le_div_of_nonneg_right hle h24.le
    · simp only [if_neg hde]
      exact le_rfl

/-- C6 witness: raising `compute_unit_seconds` from 0 to 3600 (others
fixed at 0) does not decrease the compute cost. -/
theorem C6_witness :
    categoryCost "compute_unit_seconds" (calculate_costs [] 10) ≤
      categoryCost "compute_unit_seconds"
        (calculate_costs [("compute_unit_seconds", 3600)] 10) :=
  C6_cost_monotonicity [] [("compute_unit_seconds", 3600)] 10
    "compute_unit_seconds" (by decide) (by decide) (by decide)

/-- C4: With 0 < days_elapsed ≤ days_in_month and
ratio = days_elapsed / days_in_month, the forecast divides compute
cu_hours and cost by ratio; holds storage, instant-restore and
extra-branch quantities and costs constant; divides the data-transfer
total gb by ratio, re-clamps it against the included allowance and
recomputes the cost from the re-clamped amount; the forecast total is
max(sum of the five forecast costs, minimum_monthly). -/
theorem C4_forecast_scaling (c : CostBreakdown) (de dim : ℕ)
    (hde : 0 < de) (hdim : de ≤ dim) :
    ∃ f, calculate_forecast c de dim = some f ∧
      f.compute.cu_hours = c.compute.cu_hours / ((de : ℚ) / (dim : ℚ)) ∧
      f.compute.cost = c.compute.cost / ((de : ℚ) / (dim : ℚ)) ∧
      f.storage.gb = c.storage.gb ∧
      f.storage.cost = c.storage.cost ∧
      f.instant_restore.gb = c.instant_restore.gb ∧
      f.instant_restore.cost = c.instant_restore.cost ∧
      f.extra_branches.avg_count = c.extra_branches.avg_count ∧
      f.extra_branches.cost = c.extra_branches.cost ∧
      f.data_transfer.gb = c.data_transfer.gb / ((de : ℚ) / (dim : ℚ)) ∧
      f.data_transfer.billable_gb =
        max 0 (f.data_transfer.gb - PRICING.data_transfer_included_gb) ∧
      f.data_transfer.cost =
        f.data_transfer.billable_gb * PRICING.data_transfer_per_gb ∧
      f.total.subtotal = f.compute.cost + f.storage.cost
        + f.instant_restore.cost + f.data_transfer.cost + f.extra_branches.cost ∧
      f.total.final = max f.total.subtotal PRICING.minimum_monthly := by
  unfold calculate_forecast
  rw [if_neg hde.ne']
  exact ⟨_, rfl, rfl, rfl, rfl, rfl, rfl, rfl, rfl, rfl, rfl, rfl, rfl, rfl, rfl⟩

/-- C4 witness: at days 10 of 30 a forecast is produced, it holds storage
constant and divides the compute hours by the elapsed ratio. -/
theorem C4_witness :
    ∃ f, calculate_forecast (calculate_costs [] 10) 10 30 = some f ∧
      f.storage.gb = (calculate_costs [] 10).storage.gb ∧
      f.compute.cu_hours =
        (calculate_costs [] 10).compute.cu_hours / ((10 : ℚ) / (30 : ℚ)) := by
  obtain ⟨f, hsome, hcu, _, hgb, _⟩ :=
    C4_forecast_scaling (calculate_costs [] 10) 10 30 (by norm_num) (by norm_num)
  exact ⟨f, hsome, hgb, by exact_mod_cast hcu⟩

/-- C8: For every cost breakdown and positive days_in_month, the forecast
is the `none` sentinel exactly when days_elapsed = 0, and for every
days_elapsed > 0 an actual forecast breakdown is returned. -/
theorem C8_forecast_sentinel (c : CostBreakdown) (de dim : ℕ) (hdim : 0 < dim) :
    (calculate_forecast c de dim = none ↔ de = 0) ∧
    (0 < de → ∃ f, calculate_forecast c de dim = some f) := by
  constructor
  · constructor
    · intro h
      by_contra hne
      unfold calculate_forecast at h
      rw [if_neg hne] at h
      cases h
    · intro h
      subst h
      rfl
  · intro hde
    unfold calculate_forecast
    rw [if_neg hde.ne']
    exact ⟨_, rfl⟩

/-- C8 witness: day 0 of 30 yields the sentinel; day 10 of 30 yields an
actual forecast. -/
theorem C8_witness :
    calculate_forecast (calculate_costs [] 10) 0 30 = none ∧
    ∃ f, calculate_forecast (calculate_costs [] 10) 10 30 = some f :=
  ⟨(C8_forecast_sentinel (calculate_costs [] 10) 0 30 (by norm_num)).1.2 rfl,
   (C8_forecast_sentinel (calculate_costs [] 10) 10 30 (by norm_num)).2
     (by norm_num)⟩

/-- C9 counterexample: the forecast's storage item does not carry the same
fields as the cost breakdown's storage item — `root_gb` and `child_gb`
are dropped — so the items are not field-identical as claimed. -/
theorem C9_counterexample :
    forecast_item_fields "storage" ≠ cost_item_fields "storage" := by decide

/-- C9 (amended): the forecast has the same six items in the same order as
the cost breakdown, and every forecast item's key set is a subset of the
corresponding cost item's keys — compute, instant_restore and total carry
identical keys, while storage, data_transfer and extra_branches drop the
detail keys (root_gb/child_gb, public_gb/private_gb/included_gb,
branch_hours) and keep the primary quantity and cost. -/
theorem C9_forecast_shape :
    forecast_item_order = cost_item_order ∧
    forecast_item_fields "compute" = cost_item_fields "compute" ∧
    forecast_item_fields "instant_restore" = cost_item_fields "instant_restore" ∧
    forecast_item_fields "total" = cost_item_fields "total" ∧
    forecast_item_fields "storage" ⊆ cost_item_fields "storage" ∧
    forecast_item_fields "data_transfer" ⊆ cost_item_fields "data_transfer" ∧
    forecast_item_fields "extra_branches" ⊆ cost_item_fields "extra_branches" ∧
    forecast_item_fields "storage" = ["gb", "cost"] ∧
    forecast_item_fields "data_transfer" = ["gb", "billable_gb", "cost"] ∧
    forecast_item_fields "extra_branches" = ["avg_count", "cost"] := by
  refine ⟨rfl, rfl, rfl, rfl, ?_, ?_, ?_, rfl, rfl, rfl⟩ <;> decide

end NeonUsage
